import Mathlib

/-!
Shallow embedding of `src/indoxJudge/indoxJudge.py` (the `Evaluator`
orchestration engine of osllmai/indoxeval).

Modelling conventions:
  * The metric objects are external collaborators; each strategy variant
    carries the outcomes of its external calls as data.  A call that may
    raise a Python exception is `Except Err`-valued.
  * Machine behaviour that the claims quantify over temporally (which
    external operation is invoked, with which arguments, in which order,
    and what is logged) is recorded in an event trace.
  * Python floats are modelled as rationals: the claims are about which
    score formula the orchestrator computes, not float rounding.
  * The results `dict` is an association list with Python `dict`
    assignment semantics (`insertEntry`): updating an existing key
    replaces its value in place, a new key is appended.
-/

/-- Opaque handle to the shared language model (read-only, identity only). -/
abbrev LMModel := Nat

/-- A Python exception is identified by its message string. -/
abbrev Err := String

/-- Result object carrying a `claims` attribute (Faithfulness stage 1). -/
structure ClaimsObj where
  claims : List String
deriving DecidableEq

/-- Result object carrying a `truths` attribute (Faithfulness stage 2). -/
structure TruthsObj where
  truths : List String
deriving DecidableEq

/-- A single verdict object; `data` stands for its attribute dictionary,
which the orchestrator extracts via `verdict.__dict__` or `verdict.dict()`. -/
structure Verdict where
  data : String
deriving DecidableEq

/-- Extraction of a verdict object's dictionary (`__dict__` / `.dict()`). -/
def Verdict.dict (v : Verdict) : String := v.data

/-- Result object carrying a `verdicts` attribute. -/
structure VerdictsObj where
  verdicts : List Verdict
deriving DecidableEq

/-- Result object carrying a `reason` attribute. -/
structure ReasonObj where
  reason : String
deriving DecidableEq

/-- A knowledge item; the orchestrator reads its `data` attribute. -/
structure Knowledge where
  data : String
deriving DecidableEq

/-- Modelled from the spec: the `ContextualRelevancy.get_reason` return
object is defined in the `indoxJudge.metrics` package, which is not under
`src/`.  Per the spec the rationale is produced "given the irrelevant set
and the computed score" and the report "contains that rationale and value",
so the reason object is modelled as bundling the rationale text with the
score it was given; `dict()` on it yields both fields. -/
structure CRReason where
  reason : String
  score : ℚ
deriving DecidableEq

/-- Behaviour of a `Faithfulness` metric object: the four staged external
calls driven by the orchestrator (each may raise). -/
structure FaithfulnessM where
  evaluate_claims : Except Err ClaimsObj
  evaluate_truths : Except Err TruthsObj
  evaluate_verdicts : List String → Except Err VerdictsObj
  evaluate_reason : VerdictsObj → List String → Except Err ReasonObj

/-- Behaviour of an `AnswerRelevancy` metric object: one `measure()` call
plus attributes read off the object after a successful call. -/
structure AnswerRelevancyM where
  measure : Except Err ℚ
  reason : String
  statements : List String
  verdicts : List Verdict

/-- Behaviour of a `Bias` metric object. -/
structure BiasM where
  measure : Except Err ℚ
  reason : String
  opinions : List String
  verdicts : List Verdict

/-- Behaviour of a `ContextualRelevancy` metric object: input fields plus
the three external calls the orchestrator drives.  `get_reason_text` is the
free (LLM-produced) part of `get_reason`; see `ContextualRelevancyM.get_reason`. -/
structure ContextualRelevancyM where
  query : String
  retrieval_contexts : List String
  get_irrelevancies : String → List String → Except Err (List String)
  set_irrelevancies : List String → Except Err Unit
  get_verdicts : String → List String → Except Err VerdictsObj
  get_reason_text : List String → ℚ → Except Err String

/-- Modelled from the spec: `get_reason` (defined in the absent
`indoxJudge.metrics` package) returns a reason object built from the
irrelevant set and the computed score; its free text is the strategy's
`get_reason_text` and the returned object records the score it was given. -/
def ContextualRelevancyM.get_reason (m : ContextualRelevancyM)
    (irrelevancies : List String) (score : ℚ) : Except Err CRReason :=
  match m.get_reason_text irrelevancies score with
  | .error e => .error e
  | .ok t => .ok { reason := t, score := score }

/-- Behaviour of a `GEval` metric object: one `g_eval()` call returning an
opaque result that the orchestrator stores unchanged. -/
structure GEvalM where
  g_eval : Except Err String

/-- Behaviour of a `Hallucination` metric object. -/
structure HallucinationM where
  measure : Except Err ℚ
  reason : String
  verdicts : List Verdict

/-- Behaviour of a `KnowledgeRetention` metric object. -/
structure KnowledgeRetentionM where
  measure : Except Err ℚ
  reason : String
  verdicts : List Verdict
  knowledges : List Knowledge

/-- Behaviour of a `Toxicity` metric object. -/
structure ToxicityM where
  measure : Except Err ℚ
  reason : String
  opinions : List String
  verdicts : List Verdict

/-- The closed set of metric strategy variants recognized by the
orchestrator's `isinstance` dispatch chain, plus `unrecognized` for an
object whose class matches none of the thirteen recognized kinds. -/
inductive Metric where
  | faithfulness (m : FaithfulnessM)
  | answerRelevancy (m : AnswerRelevancyM)
  | bias (m : BiasM)
  | contextualRelevancy (m : ContextualRelevancyM)
  | geval (m : GEvalM)
  | hallucination (m : HallucinationM)
  | knowledgeRetention (m : KnowledgeRetentionM)
  | toxicity (m : ToxicityM)
  | bertScore (measure : Except Err ℚ)
  | bleu (measure : Except Err ℚ)
  | rouge (measure : Except Err ℚ)
  | meteor (measure : Except Err ℚ)
  | gruen (measure : Except Err ℚ)
  | unrecognized (name : String)

/-- Python's `metric.__class__.__name__`, used in the log messages. -/
def Metric.className : Metric → String
  | .faithfulness _ => "Faithfulness"
  | .answerRelevancy _ => "AnswerRelevancy"
  | .bias _ => "Bias"
  | .contextualRelevancy _ => "ContextualRelevancy"
  | .geval _ => "GEval"
  | .hallucination _ => "Hallucination"
  | .knowledgeRetention _ => "KnowledgeRetention"
  | .toxicity _ => "Toxicity"
  | .bertScore _ => "BertScore"
  | .bleu _ => "BLEU"
  | .rouge _ => "Rouge"
  | .meteor _ => "METEOR"
  | .gruen _ => "Gruen"
  | .unrecognized n => n

/-- The report key under which each recognized variant stores its entry;
an unrecognized strategy has none. -/
def Metric.resultKey : Metric → Option String
  | .faithfulness _ => some "faithfulness"
  | .answerRelevancy _ => some "answer_relevancy"
  | .bias _ => some "bias"
  | .contextualRelevancy _ => some "contextual_relevancy"
  | .geval _ => some "geval"
  | .hallucination _ => some "hallucination"
  | .knowledgeRetention _ => some "knowledge_retention"
  | .toxicity _ => some "toxicity"
  | .bertScore _ => some "BertScore"
  | .bleu _ => some "BLEU"
  | .rouge _ => some "Rouge"
  | .meteor _ => some "Meteor"
  | .gruen _ => some "Gruen"
  | .unrecognized _ => none

/-- Variant-specific structured payload of one report entry.  Every
constructor is fully applied: the orchestrator builds each entry as a
single dict literal after all of the variant's calls have succeeded. -/
inductive Payload where
  | faithfulness (claims : List String) (truths : List String)
      (verdicts : List String) (reason : String)
  | answerRelevancy (score : ℚ) (reason : String) (statements : List String)
      (verdicts : List String)
  | bias (score : ℚ) (reason : String) (opinions : List String)
      (verdicts : List String)
  | contextualRelevancy (verdicts : List String) (reason : CRReason)
  | geval (result : String)
  | hallucination (score : ℚ) (reason : String) (verdicts : List String)
  | knowledgeRetention (score : ℚ) (reason : String) (verdicts : List String)
      (knowledges : List String)
  | toxicity (score : ℚ) (reason : String) (opinions : List String)
      (verdicts : List String)
  | scoreOnly (score : ℚ)
deriving DecidableEq

/-- Observable events of one run: logging calls and the external calls made
on strategy objects, with the arguments the claims are about. -/
inductive Event where
  | logInfo (msg : String)
  | logError (msg : String)
  | callSetModel (idx : Nat) (model : LMModel)
  | callEvaluateClaims
  | callEvaluateTruths
  | callEvaluateVerdicts (claims : List String)
  | callEvaluateReason (verdicts : VerdictsObj) (truths : List String)
  | callMeasure (kind : String)
  | callGEval
  | callGetIrrelevancies (query : String) (contexts : List String)
  | callSetIrrelevancies (irrelevancies : List String)
  | callGetVerdicts (query : String) (contexts : List String)
  | callGetReason (irrelevancies : List String) (score : ℚ)
deriving DecidableEq

/-- Protocol of a `Faithfulness` strategy (lines 69-79 of the source):
four staged calls, each consuming earlier stage outputs; the entry is
built only after all four succeed. -/
def runFaithfulness (m : FaithfulnessM) :
    Except Err (Option (String × Payload)) × List Event :=
  match m.evaluate_claims with
  | .error e => (.error e, [Event.callEvaluateClaims])
  | .ok claims =>
    match m.evaluate_truths with
    | .error e => (.error e, [Event.callEvaluateClaims, Event.callEvaluateTruths])
    | .ok truths =>
      match m.evaluate_verdicts claims.claims with
      | .error e =>
          (.error e,
           [Event.callEvaluateClaims, Event.callEvaluateTruths,
            Event.callEvaluateVerdicts claims.claims])
      | .ok verdicts =>
        match m.evaluate_reason verdicts truths.truths with
        | .error e =>
            (.error e,
             [Event.callEvaluateClaims, Event.callEvaluateTruths,
              Event.callEvaluateVerdicts claims.claims,
              Event.callEvaluateReason verdicts truths.truths])
        | .ok reason =>
            (.ok (some ("faithfulness",
              Payload.faithfulness claims.claims truths.truths
                (verdicts.verdicts.map Verdict.dict) reason.reason)),
             [Event.callEvaluateClaims, Event.callEvaluateTruths,
              Event.callEvaluateVerdicts claims.claims,
              Event.callEvaluateReason verdicts truths.truths])

/-- The score expression of source line 102-103, as a total function:
`1.0 if not irrelevancies else max(0, 1.0 - k/n)`. -/
def contextualScore (k n : Nat) : ℚ :=
  if k = 0 then 1 else max 0 (1 - (k : ℚ) / (n : ℚ))

/-- The same score expression with Python's division semantics: when the
irrelevancy list is nonempty and the context list is empty, the division
raises `ZeroDivisionError`. -/
def contextualScoreE (k n : Nat) : Except Err ℚ :=
  if k = 0 then .ok 1
  else if n = 0 then .error "division by zero"
  else .ok (max 0 (1 - (k : ℚ) / (n : ℚ)))

/-- Protocol of a `ContextualRelevancy` strategy (lines 96-108 of the
source): classify irrelevancies, record them on the strategy, request
verdicts, compute the coverage score, request the rationale. -/
def runContextualRelevancy (m : ContextualRelevancyM) :
    Except Err (Option (String × Payload)) × List Event :=
  match m.get_irrelevancies m.query m.retrieval_contexts with
  | .error e => (.error e, [Event.callGetIrrelevancies m.query m.retrieval_contexts])
  | .ok irrelevancies =>
    match m.set_irrelevancies irrelevancies with
    | .error e =>
        (.error e,
         [Event.callGetIrrelevancies m.query m.retrieval_contexts,
          Event.callSetIrrelevancies irrelevancies])
    | .ok _ =>
      match m.get_verdicts m.query m.retrieval_contexts with
      | .error e =>
          (.error e,
           [Event.callGetIrrelevancies m.query m.retrieval_contexts,
            Event.callSetIrrelevancies irrelevancies,
            Event.callGetVerdicts m.query m.retrieval_contexts])
      | .ok verdicts =>
        match contextualScoreE irrelevancies.length m.retrieval_contexts.length with
        | .error e =>
            (.error e,
             [Event.callGetIrrelevancies m.query m.retrieval_contexts,
              Event.callSetIrrelevancies irrelevancies,
              Event.callGetVerdicts m.query m.retrieval_contexts])
        | .ok score =>
          match m.get_reason irrelevancies score with
          | .error e =>
              (.error e,
               [Event.callGetIrrelevancies m.query m.retrieval_contexts,
                Event.callSetIrrelevancies irrelevancies,
                Event.callGetVerdicts m.query m.retrieval_contexts,
                Event.callGetReason irrelevancies score])
          | .ok reason =>
              (.ok (some ("contextual_relevancy",
                Payload.contextualRelevancy
                  (verdicts.verdicts.map Verdict.dict) reason)),
               [Event.callGetIrrelevancies m.query m.retrieval_contexts,
                Event.callSetIrrelevancies irrelevancies,
                Event.callGetVerdicts m.query m.retrieval_contexts,
                Event.callGetReason irrelevancies score])

/-- Protocol of one strategy: the body of the `try` block for the matched
`isinstance` branch.  Returns the entry to insert on success (`none` for a
strategy matching no recognized kind, which falls through the chain), the
raised exception on failure, and the external calls actually made. -/
def runProtocol : Metric → Except Err (Option (String × Payload)) × List Event
  | .faithfulness m => runFaithfulness m
  | .answerRelevancy m =>
    (match m.measure with
     | .error e => (.error e, [Event.callMeasure "AnswerRelevancy"])
     | .ok score =>
         (.ok (some ("answer_relevancy",
           Payload.answerRelevancy score m.reason m.statements
             (m.verdicts.map Verdict.dict))),
          [Event.callMeasure "AnswerRelevancy"]))
  | .bias m =>
    (match m.measure with
     | .error e => (.error e, [Event.callMeasure "Bias"])
     | .ok score =>
         (.ok (some ("bias",
           Payload.bias score m.reason m.opinions (m.verdicts.map Verdict.dict))),
          [Event.callMeasure "Bias"]))
  | .contextualRelevancy m => runContextualRelevancy m
  | .geval m =>
    (match m.g_eval with
     | .error e => (.error e, [Event.callGEval])
     | .ok r => (.ok (some ("geval", Payload.geval r)), [Event.callGEval]))
  | .hallucination m =>
    (match m.measure with
     | .error e => (.error e, [Event.callMeasure "Hallucination"])
     | .ok score =>
         (.ok (some ("hallucination",
           Payload.hallucination score m.reason (m.verdicts.map Verdict.dict))),
          [Event.callMeasure "Hallucination"]))
  | .knowledgeRetention m =>
    (match m.measure with
     | .error e => (.error e, [Event.callMeasure "KnowledgeRetention"])
     | .ok score =>
         (.ok (some ("knowledge_retention",
           Payload.knowledgeRetention score m.reason
             (m.verdicts.map Verdict.dict) (m.knowledges.map Knowledge.data))),
          [Event.callMeasure "KnowledgeRetention"]))
  | .toxicity m =>
    (match m.measure with
     | .error e => (.error e, [Event.callMeasure "Toxicity"])
     | .ok score =>
         (.ok (some ("toxicity",
           Payload.toxicity score m.reason m.opinions (m.verdicts.map Verdict.dict))),
          [Event.callMeasure "Toxicity"]))
  | .bertScore measure =>
    (match measure with
     | .error e => (.error e, [Event.callMeasure "BertScore"])
     | .ok score => (.ok (some ("BertScore", Payload.scoreOnly score)),
                     [Event.callMeasure "BertScore"]))
  | .bleu measure =>
    (match measure with
     | .error e => (.error e, [Event.callMeasure "BLEU"])
     | .ok score => (.ok (some ("BLEU", Payload.scoreOnly score)),
                     [Event.callMeasure "BLEU"]))
  | .rouge measure =>
    (match measure with
     | .error e => (.error e, [Event.callMeasure "Rouge"])
     | .ok score => (.ok (some ("Rouge", Payload.scoreOnly score)),
                     [Event.callMeasure "Rouge"]))
  | .meteor measure =>
    (match measure with
     | .error e => (.error e, [Event.callMeasure "METEOR"])
     | .ok score => (.ok (some ("Meteor", Payload.scoreOnly score)),
                     [Event.callMeasure "METEOR"]))
  | .gruen measure =>
    (match measure with
     | .error e => (.error e, [Event.callMeasure "Gruen"])
     | .ok score => (.ok (some ("Gruen", Payload.scoreOnly score)),
                     [Event.callMeasure "Gruen"]))
  | .unrecognized _ => (.ok none, [])

/-- A strategy object as handed to the `Evaluator`: the metric behaviour
plus the model-capability surface probed by the binder (`hasattr(metric,
'set_model')`) and the internal model reference that `set_model` assigns. -/
structure Strategy where
  has_set_model : Bool
  model : Option LMModel
  metric : Metric

/-- The loop body of `set_model_for_metrics` (lines 52-54 of the source):
for each strategy, if it exposes `set_model`, invoke it with the shared
handle (recorded as a `callSetModel` event carrying the strategy's
position); strategies lacking the capability are skipped silently. -/
def bindLoop (model : LMModel) : List Strategy → Nat → List Strategy × List Event
  | [], _ => ([], [])
  | s :: rest, i =>
    let (rest', evs) := bindLoop model rest (i + 1)
    if s.has_set_model then
      ({ s with model := some model } :: rest', Event.callSetModel i model :: evs)
    else
      (s :: rest', evs)

/-- `Evaluator.set_model_for_metrics`: binds the shared model into every
capability-bearing strategy, then logs completion. -/
def set_model_for_metrics (model : LMModel) (metrics : List Strategy) :
    List Strategy × List Event :=
  let (ms, evs) := bindLoop model metrics 0
  (ms, evs ++ [Event.logInfo "Model set for all metrics."])

/-- The `Evaluator` object: the stored model handle and strategy list. -/
structure Evaluator where
  model : LMModel
  metrics : List Strategy

/-- `Evaluator.__init__` (lines 35-46 of the source): store model and
metrics, log, and invoke `set_model_for_metrics` once, before any
evaluation. -/
def Evaluator.init (model : LMModel) (metrics : List Strategy) :
    Evaluator × List Event :=
  let (ms, evs) := set_model_for_metrics model metrics
  ({ model := model, metrics := ms },
   Event.logInfo "Evaluator initialized with model and metrics." :: evs)

/-- Python `dict` assignment `results[k] = v` on an association list:
replace the value at an existing key in place, else append the new pair. -/
def insertEntry : List (String × Payload) → String → Payload → List (String × Payload)
  | [], k, v => [(k, v)]
  | (k', v') :: rest, k, v =>
    if k' = k then (k, v) :: rest else (k', v') :: insertEntry rest k v

/-- Python `dict` lookup `results[k]` / `results.get(k)`. -/
def lookupEntry : List (String × Payload) → String → Option Payload
  | [], _ => none
  | (k', v) :: rest, k => if k' = k then some v else lookupEntry rest k

/-- Key set of the report, as a list. -/
def entryKeys (m : List (String × Payload)) : List String := m.map Prod.fst

/-- The effect of one loop iteration of `evaluate` on the results dict:
insert the entry on success, leave the dict untouched when the strategy's
protocol raised or matched no recognized kind. -/
def stepRes (results : List (String × Payload)) (s : Strategy) :
    List (String × Payload) :=
  match (runProtocol s.metric).1 with
  | .ok none => results
  | .ok (some (k, p)) => insertEntry results k p
  | .error _ => results

/-- The events of one loop iteration of `evaluate`: the start log, the
strategy's external calls, then either the completion log (the `try` body
finished, also for an unrecognized kind) or the error log naming the
metric's kind (the `except` branch, lines 161-162 of the source). -/
def strategyBlock (s : Strategy) : List Event :=
  let name := s.metric.className
  let r := runProtocol s.metric
  Event.logInfo ("Evaluating metric: " ++ name) ::
    r.2 ++
    (match r.1 with
     | .ok _ => [Event.logInfo ("Completed evaluation for metric: " ++ name)]
     | .error e => [Event.logError ("Error evaluating metric " ++ name ++ ": " ++ e)])

/-- One full loop iteration of `evaluate` (lines 65-162 of the source),
threading the results dict and the trace. -/
def evalStep (acc : List (String × Payload) × List Event) (s : Strategy) :
    List (String × Payload) × List Event :=
  let name := s.metric.className
  let r := runProtocol s.metric
  match r.1 with
  | .ok none =>
      (acc.1,
       acc.2 ++ Event.logInfo ("Evaluating metric: " ++ name) :: r.2 ++
         [Event.logInfo ("Completed evaluation for metric: " ++ name)])
  | .ok (some (k, p)) =>
      (insertEntry acc.1 k p,
       acc.2 ++ Event.logInfo ("Evaluating metric: " ++ name) :: r.2 ++
         [Event.logInfo ("Completed evaluation for metric: " ++ name)])
  | .error e =>
      (acc.1,
       acc.2 ++ Event.logInfo ("Evaluating metric: " ++ name) :: r.2 ++
         [Event.logError ("Error evaluating metric " ++ name ++ ": " ++ e)])

/-- `Evaluator.evaluate` (lines 57-163 of the source): fold the loop body
over the stored strategies, starting from the empty dict, returning the
aggregated report and the trace of the run. -/
def Evaluator.evaluate (ev : Evaluator) : List (String × Payload) × List Event :=
  ev.metrics.foldl evalStep ([], [])

/-- The whole pipeline a caller sees: construct the `Evaluator` (which
binds the model) with the configured strategies, then evaluate. -/
def runAll (model : LMModel) (metrics : List Strategy) :
    List (String × Payload) × List Event :=
  let (ev, initEvs) := Evaluator.init model metrics
  let (res, evalEvs) := ev.evaluate
  (res, initEvs ++ evalEvs)

/-- The entry a strategy contributes when its protocol succeeds. -/
def successEntry (s : Strategy) : Option (String × Payload) :=
  match (runProtocol s.metric).1 with
  | .ok (some kp) => some kp
  | _ => none

/-- Fold step computing, for a fixed key, the payload of the most recent
successful strategy with that key. -/
def lastUpd (k : String) (acc : Option Payload) (s : Strategy) : Option Payload :=
  match successEntry s with
  | some (k', v) => if k' = k then some v else acc
  | none => acc

/-- Payload of the last strategy in the list whose protocol succeeded with
report key `k`, if any. -/
def lastSuccess (ms : List Strategy) (k : String) : Option Payload :=
  ms.foldl (lastUpd k) none

/-- Demonstration strategy: a BLEU metric whose `measure()` returns `1.0`. -/
def bleuOk : Strategy := ⟨false, none, Metric.bleu (Except.ok 1)⟩

/-- Demonstration strategy: a BLEU metric whose `measure()` returns `0.0`. -/
def bleuOk0 : Strategy := ⟨false, none, Metric.bleu (Except.ok 0)⟩

/-- Demonstration strategy: a BLEU metric whose `measure()` raises. -/
def bleuFail : Strategy := ⟨false, none, Metric.bleu (Except.error "boom")⟩

/-- Demonstration strategy whose class matches no recognized metric kind. -/
def unrecDemo : Strategy := ⟨false, none, Metric.unrecognized "BrokenMetric"⟩

/-- Demonstration strategy exposing the `set_model` capability. -/
def capDemo : Strategy := ⟨true, none, Metric.geval ⟨Except.ok "fine"⟩⟩

/-- Demonstration `ContextualRelevancy` behaviour: three contexts, of which
exactly one is classified irrelevant, and all calls succeed. -/
def crDemo : ContextualRelevancyM :=
  { query := "Q"
    retrieval_contexts := ["a", "b", "c"]
    get_irrelevancies := fun _ _ => Except.ok ["b"]
    set_irrelevancies := fun _ => Except.ok ()
    get_verdicts := fun _ _ => Except.ok ⟨[⟨"v1"⟩]⟩
    get_reason_text := fun _ _ => Except.ok "one context was irrelevant" }

/-- Demonstration `Faithfulness` behaviour with all four stages succeeding. -/
def faithDemo : FaithfulnessM :=
  { evaluate_claims := Except.ok ⟨["c1", "c2"]⟩
    evaluate_truths := Except.ok ⟨["t1"]⟩
    evaluate_verdicts := fun _ => Except.ok ⟨[⟨"yes"⟩, ⟨"no"⟩]⟩
    evaluate_reason := fun _ _ => Except.ok ⟨"mostly supported"⟩ }

theorem lookup_insert_self (m : List (String × Payload)) (k : String) (v : Payload) :
    lookupEntry (insertEntry m k v) k = some v := by
  induction m with
  | nil => simp [insertEntry, lookupEntry]
  | cons hd tl ih =>
    obtain ⟨k', v'⟩ := hd
    by_cases h : k' = k <;> simp [insertEntry, lookupEntry, h, ih]

theorem lookup_insert_ne (m : List (String × Payload)) (k k'' : String) (v : Payload)
    (hne : k'' ≠ k) : lookupEntry (insertEntry m k v) k'' = lookupEntry m k'' := by
  have hk : ¬k = k'' := fun h => hne h.symm
  induction m with
  | nil => simp [insertEntry, lookupEntry, hk]
  | cons hd tl ih =>
    obtain ⟨k', v'⟩ := hd
    by_cases h : k' = k
    · subst h
      simp [insertEntry, lookupEntry, hk]
    · simp [insertEntry, lookupEntry, h, ih]

theorem mem_entryKeys_insert (m : List (String × Payload)) (k k'' : String) (v : Payload)
    (h : k'' ∈ entryKeys (insertEntry m k v)) : k'' ∈ entryKeys m ∨ k'' = k := by
  induction m with
  | nil => simpa [insertEntry, entryKeys] using h
  | cons hd tl ih =>
    obtain ⟨k', v'⟩ := hd
    by_cases hk : k' = k
    · subst hk
      rcases (by simpa [insertEntry, entryKeys] using h) with h1 | h1
      · exact Or.inr h1
      · exact Or.inl (by simp [entryKeys, h1])
    · rcases (by simpa [insertEntry, entryKeys, hk] using h) with h1 | h1
      · exact Or.inl (by simp [entryKeys, h1])
      · rcases ih (by simpa [entryKeys] using h1) with h2 | h2
        · exact Or.inl (by simp [entryKeys]; right; simpa [entryKeys] using h2)
        · exact Or.inr h2

theorem nodup_entryKeys_insert (m : List (String × Payload)) (k : String) (v : Payload)
    (h : (entryKeys m).Nodup) : (entryKeys (insertEntry m k v)).Nodup := by
  induction m with
  | nil => simp [insertEntry, entryKeys]
  | cons hd tl ih =>
    obtain ⟨k', v'⟩ := hd
    simp only [entryKeys, List.map_cons, List.nodup_cons] at h
    by_cases hk : k' = k
    · subst hk
      simpa [insertEntry, entryKeys, List.nodup_cons] using h
    · simp only [insertEntry, if_neg hk, entryKeys, List.map_cons, List.nodup_cons]
      constructor
      · intro hmem
        rcases mem_entryKeys_insert tl k k' v (by simpa [entryKeys] using hmem) with h1 | h1
        · exact h.1 (by simpa [entryKeys] using h1)
        · exact hk h1
      · simpa [entryKeys] using ih h.2

theorem evalStep_eq (acc : List (String × Payload) × List Event) (s : Strategy) :
    evalStep acc s = (stepRes acc.1 s, acc.2 ++ strategyBlock s) := by
  unfold evalStep stepRes strategyBlock
  rcases h : (runProtocol s.metric).1 with e | o
  · simp [h]
  · rcases o with _ | ⟨k, p⟩ <;> simp [h]

theorem foldl_evalStep (ms : List Strategy) (acc : List (String × Payload) × List Event) :
    ms.foldl evalStep acc = (ms.foldl stepRes acc.1, acc.2 ++ ms.flatMap strategyBlock) := by
  induction ms generalizing acc with
  | nil => simp
  | cons s tl ih => simp [evalStep_eq, ih]

theorem stepRes_metric_congr (res : List (String × Payload)) (s t : Strategy)
    (h : s.metric = t.metric) : stepRes res s = stepRes res t := by
  unfold stepRes
  rw [h]

theorem strategyBlock_metric_congr (s t : Strategy) (h : s.metric = t.metric) :
    strategyBlock s = strategyBlock t := by
  unfold strategyBlock
  rw [h]

theorem bindLoop_fst (model : LMModel) (ms : List Strategy) (i : Nat) :
    (bindLoop model ms i).1
      = ms.map (fun s => if s.has_set_model then { s with model := some model } else s) := by
  induction ms generalizing i with
  | nil => simp [bindLoop]
  | cons s tl ih =>
    by_cases h : s.has_set_model <;> simp [bindLoop, h, ih]

theorem foldl_stepRes_bind (model : LMModel) (ms : List Strategy)
    (res : List (String × Payload)) (i : Nat) :
    (bindLoop model ms i).1.foldl stepRes res = ms.foldl stepRes res := by
  rw [bindLoop_fst]
  induction ms generalizing res with
  | nil => simp
  | cons s tl ih =>
    simp only [List.map_cons, List.foldl_cons]
    by_cases h : s.has_set_model
    · rw [if_pos h, stepRes_metric_congr res { s with model := some model } s rfl]
      exact ih _
    · rw [if_neg h]
      exact ih _

theorem flatMap_block_bind (model : LMModel) (ms : List Strategy) (i : Nat) :
    (bindLoop model ms i).1.flatMap strategyBlock = ms.flatMap strategyBlock := by
  rw [bindLoop_fst]
  induction ms with
  | nil => simp
  | cons s tl ih =>
    simp only [List.map_cons, List.flatMap_cons]
    by_cases h : s.has_set_model
    · rw [if_pos h, strategyBlock_metric_congr { s with model := some model } s rfl, ih]
    · rw [if_neg h, ih]

theorem runAll_results (model : LMModel) (ms : List Strategy) :
    (runAll model ms).1 = ms.foldl stepRes [] := by
  unfold runAll Evaluator.init set_model_for_metrics Evaluator.evaluate
  simp [foldl_evalStep, foldl_stepRes_bind]

theorem runAll_trace (model : LMModel) (ms : List Strategy) :
    (runAll model ms).2 = (Evaluator.init model ms).2 ++ ms.flatMap strategyBlock := by
  unfold runAll Evaluator.init set_model_for_metrics Evaluator.evaluate
  simp [foldl_evalStep, flatMap_block_bind]

theorem lookup_stepRes (res : List (String × Payload)) (s : Strategy) (k : String) :
    lookupEntry (stepRes res s) k = lastUpd k (lookupEntry res k) s := by
  unfold stepRes lastUpd successEntry
  rcases h : (runProtocol s.metric).1 with e | o
  · simp
  · rcases o with _ | ⟨k', p⟩
    · simp
    · by_cases hk : k' = k
      · subst hk
        simp [lookup_insert_self]
      · simp [hk, lookup_insert_ne res k' k p (fun h => hk h.symm)]

theorem lookup_foldl_stepRes (ms : List Strategy) (res : List (String × Payload))
    (k : String) :
    lookupEntry (ms.foldl stepRes res) k = ms.foldl (lastUpd k) (lookupEntry res k) := by
  induction ms generalizing res with
  | nil => rfl
  | cons s tl ih => simp [ih, lookup_stepRes]

theorem foldl_lastUpd_or (k : String) (ms : List Strategy) (o : Option Payload) :
    ms.foldl (lastUpd k) o = (lastSuccess ms k).or o := by
  induction ms generalizing o with
  | nil => simp [lastSuccess]
  | cons s tl ih =>
    have hcons : lastSuccess (s :: tl) k = (lastSuccess tl k).or (lastUpd k none s) := by
      simp only [lastSuccess, List.foldl_cons]
      rw [ih]
      rfl
    simp only [List.foldl_cons, hcons, ih (lastUpd k o s)]
    rcases hl : lastSuccess tl k with _ | v
    · simp only [Option.none_or]
      unfold lastUpd
      rcases hs : successEntry s with _ | ⟨k', p⟩
      · simp
      · by_cases hk : k' = k <;> simp [hk]
    · simp [Option.or]

theorem lookup_runAll (model : LMModel) (ms : List Strategy) (k : String) :
    lookupEntry (runAll model ms).1 k = lastSuccess ms k := by
  rw [runAll_results, lookup_foldl_stepRes, foldl_lastUpd_or]
  simp [lookupEntry]

theorem lastSuccess_mem (ms : List Strategy) (k : String) (v : Payload)
    (h : lastSuccess ms k = some v) : ∃ s ∈ ms, successEntry s = some (k, v) := by
  induction ms with
  | nil => simp [lastSuccess] at h
  | cons s tl ih =>
    have hcons : lastSuccess (s :: tl) k = (lastSuccess tl k).or (lastUpd k none s) := by
      simp only [lastSuccess, List.foldl_cons]
      rw [foldl_lastUpd_or]
      rfl
    rw [hcons] at h
    rcases hl : lastSuccess tl k with _ | w
    · rw [hl, Option.none_or] at h
      unfold lastUpd at h
      rcases hs : successEntry s with _ | ⟨k', p⟩
      · simp [hs] at h
      · rw [hs] at h
        by_cases hk : k' = k
        · subst hk
          simp at h
          exact ⟨s, by simp, by rw [hs, h]⟩
        · simp [hk] at h
    · rw [hl] at h
      simp only [Option.or] at h
      obtain ⟨t, ht, hts⟩ := ih (hl.trans (by rw [← h]))
      exact ⟨t, by simp [ht], hts⟩

theorem nodup_entryKeys_foldl (ms : List Strategy) (res : List (String × Payload))
    (h : (entryKeys res).Nodup) : (entryKeys (ms.foldl stepRes res)).Nodup := by
  induction ms generalizing res with
  | nil => exact h
  | cons s tl ih =>
    refine ih _ ?_
    unfold stepRes
    rcases hr : (runProtocol s.metric).1 with e | o
    · exact h
    · rcases o with _ | ⟨k, p⟩
      · exact h
      · exact nodup_entryKeys_insert res k p h

theorem nodup_entryKeys_runAll (model : LMModel) (ms : List Strategy) :
    (entryKeys (runAll model ms).1).Nodup := by
  rw [runAll_results]
  exact nodup_entryKeys_foldl ms [] (by simp [entryKeys])

theorem runProtocol_key (m : Metric) (k : String) (p : Payload)
    (h : (runProtocol m).1 = .ok (some (k, p))) : m.resultKey = some k := by
  cases m with
  | faithfulness mm =>
    rcases h1 : mm.evaluate_claims with e | c <;>
      simp [runProtocol, runFaithfulness, h1] at h
    rcases h2 : mm.evaluate_truths with e | t <;> simp [h2] at h
    rcases h3 : mm.evaluate_verdicts c.claims with e | vd <;> simp [h3] at h
    rcases h4 : mm.evaluate_reason vd t.truths with e | r <;> simp [h4] at h
    simp_all [Metric.resultKey]
  | answerRelevancy mm =>
    rcases hm : mm.measure with e | sc <;> simp [runProtocol, hm] at h
    simp_all [Metric.resultKey]
  | bias mm =>
    rcases hm : mm.measure with e | sc <;> simp [runProtocol, hm] at h
    simp_all [Metric.resultKey]
  | contextualRelevancy mm =>
    rcases h1 : mm.get_irrelevancies mm.query mm.retrieval_contexts with e | irr <;>
      simp [runProtocol, runContextualRelevancy, h1] at h
    rcases h2 : mm.set_irrelevancies irr with e | u <;> simp [h2] at h
    rcases h3 : mm.get_verdicts mm.query mm.retrieval_contexts with e | vd <;>
      simp [h3] at h
    rcases h4 : contextualScoreE irr.length mm.retrieval_contexts.length with e | sc <;>
      simp [h4] at h
    rcases h5 : mm.get_reason irr sc with e | r <;> simp [h5] at h
    simp_all [Metric.resultKey]
  | geval mm =>
    rcases hm : mm.g_eval with e | r <;> simp [runProtocol, hm] at h
    simp_all [Metric.resultKey]
  | hallucination mm =>
    rcases hm : mm.measure with e | sc <;> simp [runProtocol, hm] at h
    simp_all [Metric.resultKey]
  | knowledgeRetention mm =>
    rcases hm : mm.measure with e | sc <;> simp [runProtocol, hm] at h
    simp_all [Metric.resultKey]
  | toxicity mm =>
    rcases hm : mm.measure with e | sc <;> simp [runProtocol, hm] at h
    simp_all [Metric.resultKey]
  | bertScore mz =>
    rcases hm : mz with e | sc <;> simp [runProtocol, hm] at h
    simp_all [Metric.resultKey]
  | bleu mz =>
    rcases hm : mz with e | sc <;> simp [runProtocol, hm] at h
    simp_all [Metric.resultKey]
  | rouge mz =>
    rcases hm : mz with e | sc <;> simp [runProtocol, hm] at h
    simp_all [Metric.resultKey]
  | meteor mz =>
    rcases hm : mz with e | sc <;> simp [runProtocol, hm] at h
    simp_all [Metric.resultKey]
  | gruen mz =>
    rcases hm : mz with e | sc <;> simp [runProtocol, hm] at h
    simp_all [Metric.resultKey]
  | unrecognized n => simp [runProtocol] at h

theorem successEntry_key (s : Strategy) (k : String) (v : Payload)
    (h : successEntry s = some (k, v)) : s.metric.resultKey = some k := by
  unfold successEntry at h
  rcases hr : (runProtocol s.metric).1 with e | o
  · rw [hr] at h
    simp at h
  · rcases o with _ | kp
    · rw [hr] at h
      simp at h
    · rw [hr] at h
      simp at h
      exact runProtocol_key s.metric k v (by rw [hr, h])

theorem runProtocol_no_setModel (m : Metric) (i : Nat) (mo : LMModel) :
    Event.callSetModel i mo ∉ (runProtocol m).2 := by
  cases m <;>
    simp only [runProtocol, runFaithfulness, runContextualRelevancy] <;>
    (repeat' split) <;> simp

theorem mem_strategyBlock (e : Event) (s : Strategy) (h : e ∈ strategyBlock s) :
    e = Event.logInfo ("Evaluating metric: " ++ s.metric.className)
    ∨ e ∈ (runProtocol s.metric).2
    ∨ e = Event.logInfo ("Completed evaluation for metric: " ++ s.metric.className)
    ∨ ∃ er, (runProtocol s.metric).1 = .error er
        ∧ e = Event.logError ("Error evaluating metric " ++ s.metric.className ++ ": " ++ er) := by
  unfold strategyBlock at h
  rcases hr : (runProtocol s.metric).1 with er | o
  · simp only [hr] at h
    rcases (by simpa using h :
        e = Event.logInfo ("Evaluating metric: " ++ s.metric.className)
        ∨ e ∈ (runProtocol s.metric).2
        ∨ e = Event.logError ("Error evaluating metric " ++ s.metric.className ++ ": " ++ er))
      with h1 | h1 | h1
    · exact Or.inl h1
    · exact Or.inr (Or.inl h1)
    · exact Or.inr (Or.inr (Or.inr ⟨er, rfl, h1⟩))
  · simp only [hr] at h
    rcases (by simpa using h :
        e = Event.logInfo ("Evaluating metric: " ++ s.metric.className)
        ∨ e ∈ (runProtocol s.metric).2
        ∨ e = Event.logInfo ("Completed evaluation for metric: " ++ s.metric.className))
      with h1 | h1 | h1
    · exact Or.inl h1
    · exact Or.inr (Or.inl h1)
    · exact Or.inr (Or.inr (Or.inl h1))

theorem strategyBlock_no_setModel (s : Strategy) (i : Nat) (mo : LMModel) :
    Event.callSetModel i mo ∉ strategyBlock s := by
  intro hmem
  rcases mem_strategyBlock _ s hmem with h | h | h | ⟨er, _, h⟩
  · exact absurd h (by simp)
  · exact runProtocol_no_setModel s.metric i mo h
  · exact absurd h (by simp)
  · exact absurd h (by simp)

theorem flatMap_no_setModel (ms : List Strategy) (i : Nat) (mo : LMModel) :
    Event.callSetModel i mo ∉ ms.flatMap strategyBlock := by
  intro hmem
  rw [List.mem_flatMap] at hmem
  obtain ⟨s, _, hs⟩ := hmem
  exact strategyBlock_no_setModel s i mo hs

theorem stepRes_error (res : List (String × Payload)) (s : Strategy) (e : Err)
    (h : (runProtocol s.metric).1 = .error e) : stepRes res s = res := by
  unfold stepRes
  rw [h]

theorem stepRes_unrecognized (res : List (String × Payload)) (s : Strategy) (n : String)
    (h : s.metric = .unrecognized n) : stepRes res s = res := by
  unfold stepRes
  rw [h]
  rfl

theorem logError_mem_strategyBlock (s : Strategy) (e : Err)
    (h : (runProtocol s.metric).1 = .error e) :
    Event.logError ("Error evaluating metric " ++ s.metric.className ++ ": " ++ e)
      ∈ strategyBlock s := by
  unfold strategyBlock
  simp only [h]
  simp

theorem bindLoop_mem_events (model : LMModel) (ms : List Strategy) (j : Nat) (mo : LMModel) :
    ∀ i, Event.callSetModel j mo ∈ (bindLoop model ms i).2 ↔
      mo = model ∧ i ≤ j ∧ (ms.get? (j - i)).map Strategy.has_set_model = some true := by
  induction ms with
  | nil =>
    intro i
    simp [bindLoop]
  | cons s tl ih =>
    intro i
    cases hb : s.has_set_model
    · have hbl : (bindLoop model (s :: tl) i).2 = (bindLoop model tl (i + 1)).2 := by
        simp [bindLoop, hb]
      rw [hbl, ih (i + 1)]
      constructor
      · rintro ⟨hmo, hij, hget⟩
        refine ⟨hmo, by omega, ?_⟩
        have hd : j - i = (j - (i + 1)) + 1 := by omega
        rw [hd]
        simpa using hget
      · rintro ⟨hmo, hij, hget⟩
        by_cases hji : j = i
        · subst hji
          rw [Nat.sub_self] at hget
          simp [hb] at hget
        · refine ⟨hmo, by omega, ?_⟩
          have hd : j - i = (j - (i + 1)) + 1 := by omega
          rw [hd] at hget
          simpa using hget
    · have hbl : (bindLoop model (s :: tl) i).2
          = Event.callSetModel i model :: (bindLoop model tl (i + 1)).2 := by
        simp [bindLoop, hb]
      rw [hbl]
      simp only [List.mem_cons, Event.callSetModel.injEq, ih (i + 1)]
      constructor
      · rintro (⟨hj, hmo⟩ | ⟨hmo, hij, hget⟩)
        · subst hj
          exact ⟨hmo, Nat.le_refl j, by simp [hb]⟩
        · refine ⟨hmo, by omega, ?_⟩
          have hd : j - i = (j - (i + 1)) + 1 := by omega
          rw [hd]
          simpa using hget
      · rintro ⟨hmo, hij, hget⟩
        by_cases hji : j = i
        · exact Or.inl ⟨hji, hmo⟩
        · refine Or.inr ⟨hmo, by omega, ?_⟩
          have hd : j - i = (j - (i + 1)) + 1 := by omega
          rw [hd] at hget
          simpa using hget

theorem init_metrics (model : LMModel) (ms : List Strategy) :
    ((Evaluator.init model ms).1).metrics = (bindLoop model ms 0).1 := by
  simp [Evaluator.init, set_model_for_metrics]

theorem init_trace (model : LMModel) (ms : List Strategy) :
    (Evaluator.init model ms).2
      = Event.logInfo "Evaluator initialized with model and metrics."
        :: (bindLoop model ms 0).2 ++ [Event.logInfo "Model set for all metrics."] := by
  simp [Evaluator.init, set_model_for_metrics]

theorem bindLoop_count_le_one (model : LMModel) (ms : List Strategy) (j : Nat) (mo : LMModel) :
    ∀ i, ((bindLoop model ms i).2).count (Event.callSetModel j mo) ≤ 1 := by
  induction ms with
  | nil =>
    intro i
    simp [bindLoop]
  | cons s tl ih =>
    intro i
    cases hb : s.has_set_model
    · have hbl : (bindLoop model (s :: tl) i).2 = (bindLoop model tl (i + 1)).2 := by
        simp [bindLoop, hb]
      rw [hbl]
      exact ih (i + 1)
    · have hbl : (bindLoop model (s :: tl) i).2
          = Event.callSetModel i model :: (bindLoop model tl (i + 1)).2 := by
        simp [bindLoop, hb]
      rw [hbl, List.count_cons]
      by_cases he : Event.callSetModel j mo = Event.callSetModel i model
      · have hji : j = i := (Event.callSetModel.inj he).1
        have hnot : Event.callSetModel j mo ∉ (bindLoop model tl (i + 1)).2 := by
          rw [bindLoop_mem_events]
          rintro ⟨_, hij, _⟩
          omega
        rw [List.count_eq_zero.mpr hnot]
        split <;> simp
      · have hbeq : (Event.callSetModel i model == Event.callSetModel j mo) = false := by
          rw [beq_eq_false_iff_ne]
          exact fun hcontra => he hcontra.symm
        rw [hbeq]
        simpa using ih (i + 1)

theorem lookup_some_of_mem_keys (m : List (String × Payload)) (k : String)
    (h : k ∈ entryKeys m) : ∃ v, lookupEntry m k = some v := by
  induction m with
  | nil => simp [entryKeys] at h
  | cons hd tl ih =>
    obtain ⟨k', v'⟩ := hd
    by_cases hk : k' = k
    · exact ⟨v', by simp [lookupEntry, hk]⟩
    · have : k ∈ entryKeys tl := by
        rcases (by simpa [entryKeys] using h) with h1 | h1
        · exact absurd h1.symm hk
        · simpa [entryKeys] using h1
      obtain ⟨v, hv⟩ := ih this
      exact ⟨v, by simp [lookupEntry, hk, hv]⟩

theorem mem_keys_of_lookup (m : List (String × Payload)) (k : String) (v : Payload)
    (h : lookupEntry m k = some v) : k ∈ entryKeys m := by
  induction m with
  | nil => simp [lookupEntry] at h
  | cons hd tl ih =>
    obtain ⟨k', v'⟩ := hd
    by_cases hk : k' = k
    · simp [entryKeys, hk]
    · simp only [lookupEntry, if_neg hk] at h
      simp only [entryKeys, List.map_cons, List.mem_cons]
      exact Or.inr (by simpa [entryKeys] using ih h)

/-- C1: if driving one strategy's protocol raises any exception during
`evaluate`, the orchestrator catches it, logs an error naming the metric's
kind, and continues: the aggregated report equals the report of the same
run without the failing strategy, so every other strategy still produces
its entry and the run is never aborted. -/
theorem C1_failure_isolated (model : LMModel) (pre post : List Strategy)
    (s : Strategy) (e : Err) (h : (runProtocol s.metric).1 = .error e) :
    (runAll model (pre ++ s :: post)).1 = (runAll model (pre ++ post)).1
    ∧ Event.logError ("Error evaluating metric " ++ s.metric.className ++ ": " ++ e)
        ∈ (runAll model (pre ++ s :: post)).2 := by
  constructor
  · rw [runAll_results, runAll_results, List.foldl_append, List.foldl_append,
      List.foldl_cons, stepRes_error _ s e h]
  · rw [runAll_trace]
    refine List.mem_append_right _ ?_
    rw [List.mem_flatMap]
    exact ⟨s, by simp, logError_mem_strategyBlock s e h⟩

/-- C1 witness: a failing BLEU strategy between two successful ones. -/
theorem C1_failure_isolated_witness :
    (runProtocol bleuFail.metric).1 = .error "boom"
    ∧ ((runAll 0 ([bleuOk] ++ bleuFail :: [capDemo])).1
         = (runAll 0 ([bleuOk] ++ [capDemo])).1
       ∧ Event.logError
           ("Error evaluating metric " ++ bleuFail.metric.className ++ ": " ++ "boom")
           ∈ (runAll 0 ([bleuOk] ++ bleuFail :: [capDemo])).2) :=
  ⟨rfl, C1_failure_isolated 0 [bleuOk] [capDemo] bleuFail "boom" rfl⟩

/-- C7: strategies are attempted strictly one at a time in exactly the
order of the configured list: the run's trace is the construction-time
trace followed by the concatenation, in list order, of each strategy's
contiguous block (its start log, all of its protocol's calls, then its
completion or error log), so each strategy's protocol runs to completion
or raises before the next strategy's protocol begins. -/
theorem C7_sequential_order (model : LMModel) (ms : List Strategy) :
    (runAll model ms).2 = (Evaluator.init model ms).2 ++ ms.flatMap strategyBlock := by
  unfold runAll Evaluator.init set_model_for_metrics Evaluator.evaluate
  simp [foldl_evalStep, flatMap_block_bind]

/-- C8: the report never contains a partial entry: every entry present in
the aggregated report is the complete payload produced by some strategy
whose whole protocol succeeded (a strategy that raises anywhere mid-way
through its call sequence contributes nothing). -/
theorem C8_no_partial_entries (model : LMModel) (ms : List Strategy)
    (k : String) (v : Payload)
    (h : lookupEntry (runAll model ms).1 k = some v) :
    ∃ s ∈ ms, successEntry s = some (k, v) := by
  rw [lookup_runAll] at h
  exact lastSuccess_mem ms k v h

/-- C8 witness: the BLEU entry of a run traces back to a successful run. -/
theorem C8_no_partial_entries_witness :
    lookupEntry (runAll 0 [bleuOk]).1 "BLEU" = some (Payload.scoreOnly 1)
    ∧ ∃ s ∈ [bleuOk], successEntry s = some ("BLEU", Payload.scoreOnly 1) :=
  ⟨rfl, C8_no_partial_entries 0 [bleuOk] "BLEU" (Payload.scoreOnly 1) rfl⟩

/-- C9: a configured strategy matching none of the thirteen recognized
kinds is silently skipped by `evaluate`: none of its operations are
invoked (its protocol trace is empty and raises nothing), it contributes
no report entry (the report equals that of the run without it), and its
loop iteration logs only the start and completion info messages, no
error. -/
theorem C9_unrecognized_skipped (model : LMModel) (pre post : List Strategy)
    (s : Strategy) (n : String) (hm : s.metric = .unrecognized n) :
    runProtocol s.metric = (.ok none, [])
    ∧ (runAll model (pre ++ s :: post)).1 = (runAll model (pre ++ post)).1
    ∧ strategyBlock s = [Event.logInfo ("Evaluating metric: " ++ n),
        Event.logInfo ("Completed evaluation for metric: " ++ n)] := by
  refine ⟨by rw [hm]; rfl, ?_, ?_⟩
  · rw [runAll_results, runAll_results, List.foldl_append, List.foldl_append,
      List.foldl_cons, stepRes_unrecognized _ s n hm]
  · unfold strategyBlock
    simp [hm, Metric.className, runProtocol]

/-- C9 witness: an unrecognized `BrokenMetric` strategy between two
recognized ones. -/
theorem C9_unrecognized_skipped_witness :
    unrecDemo.metric = .unrecognized "BrokenMetric"
    ∧ (runProtocol unrecDemo.metric = (.ok none, [])
       ∧ (runAll 0 ([bleuOk] ++ unrecDemo :: [capDemo])).1
           = (runAll 0 ([bleuOk] ++ [capDemo])).1
       ∧ strategyBlock unrecDemo
           = [Event.logInfo ("Evaluating metric: " ++ "BrokenMetric"),
              Event.logInfo ("Completed evaluation for metric: " ++ "BrokenMetric")]) :=
  ⟨rfl, C9_unrecognized_skipped 0 [bleuOk] [capDemo] unrecDemo "BrokenMetric" rfl⟩

/-- C2 counterexample: with two BLEU strategies, the first raising and the
second succeeding, the key "BLEU" of a strategy that raised during its
protocol is nevertheless present in the returned mapping, so the claim as
stated (a raising strategy's key is always absent) is false on the code. -/
theorem C2_keys_counterexample :
    (runProtocol bleuFail.metric).1 = .error "boom"
    ∧ bleuFail.metric.resultKey = some "BLEU"
    ∧ lookupEntry (runAll 0 [bleuFail, bleuOk]).1 "BLEU" = some (Payload.scoreOnly 1) :=
  ⟨rfl, rfl, rfl⟩

/-- C2 (amended): the key set of the mapping returned by `evaluate` is a
subset of the kind-keys of the configured strategies, and the key of any
strategy that raised during its protocol is absent from the returned
mapping unless some other configured strategy succeeded under the same
kind-key. -/
theorem C2_keys_subset (model : LMModel) (ms : List Strategy) :
    (∀ k, k ∈ entryKeys (runAll model ms).1
        → some k ∈ ms.map (fun s => s.metric.resultKey))
    ∧ ∀ s ∈ ms, ∀ e k, (runProtocol s.metric).1 = .error e
        → s.metric.resultKey = some k
        → (∀ t ∈ ms, ∀ v, successEntry t ≠ some (k, v))
        → k ∉ entryKeys (runAll model ms).1 := by
  constructor
  · intro k hk
    obtain ⟨v, hv⟩ := lookup_some_of_mem_keys _ k hk
    rw [lookup_runAll] at hv
    obtain ⟨t, ht, hts⟩ := lastSuccess_mem ms k v hv
    rw [List.mem_map]
    exact ⟨t, ht, successEntry_key t k v hts⟩
  · intro s hs e k herr hkey hnone hk
    obtain ⟨v, hv⟩ := lookup_some_of_mem_keys _ k hk
    rw [lookup_runAll] at hv
    obtain ⟨t, ht, hts⟩ := lastSuccess_mem ms k v hv
    exact hnone t ht v hts

/-- C2 witness: with a single failing BLEU strategy, the key set is within
the configured kind-keys and "BLEU" is absent from the report. -/
theorem C2_keys_subset_witness :
    bleuFail ∈ [bleuFail]
    ∧ (runProtocol bleuFail.metric).1 = .error "boom"
    ∧ bleuFail.metric.resultKey = some "BLEU"
    ∧ (∀ t ∈ [bleuFail], ∀ v, successEntry t ≠ some ("BLEU", v))
    ∧ "BLEU" ∉ entryKeys (runAll 0 [bleuFail]).1 := by
  have hne : ∀ t ∈ [bleuFail], ∀ v, successEntry t ≠ some ("BLEU", v) := by
    intro t ht v
    rw [List.mem_singleton] at ht
    subst ht
    rw [show successEntry bleuFail = none from rfl]
    simp
  exact ⟨by simp, rfl, rfl, hne,
    (C2_keys_subset 0 [bleuFail]).2 bleuFail (by simp) "boom" "BLEU" rfl rfl hne⟩

/-- C3: for a `ContextualRelevancy` strategy with `n > 0` contexts whose
irrelevancy classification succeeds with `k` items (and whose recording
and verdict calls succeed, so that the rationale request is reached), the
score the orchestrator computes and passes to `get_reason` equals `1.0`
when `k = 0` and `max(0, 1 - k/n)` otherwise. -/
theorem C3_contextual_score (m : ContextualRelevancyM) (n k : Nat)
    (irrs : List String) (vs : VerdictsObj)
    (hn : m.retrieval_contexts.length = n) (hpos : 0 < n)
    (hirr : m.get_irrelevancies m.query m.retrieval_contexts = .ok irrs)
    (hk : irrs.length = k) (hkn : k ≤ n)
    (hset : m.set_irrelevancies irrs = .ok ())
    (hvs : m.get_verdicts m.query m.retrieval_contexts = .ok vs) :
    Event.callGetReason irrs (if k = 0 then 1 else max 0 (1 - (k : ℚ) / (n : ℚ)))
      ∈ (runProtocol (Metric.contextualRelevancy m)).2 := by
  have hscore : contextualScoreE irrs.length m.retrieval_contexts.length
      = .ok (if k = 0 then 1 else max 0 (1 - (k : ℚ) / (n : ℚ))) := by
    rw [hk, hn]
    unfold contextualScoreE
    by_cases h0 : k = 0
    · simp [h0]
    · rw [if_neg h0, if_neg (by omega), if_neg h0]
  rcases hr : m.get_reason irrs (if k = 0 then 1 else max 0 (1 - (k : ℚ) / (n : ℚ)))
      with e | r <;>
    simp [runProtocol, runContextualRelevancy, hirr, hset, hvs, hscore, hr]

/-- C3 witness: three contexts with one irrelevant item; the rationale
request carries the score `max(0, 1 - 1/3)`. -/
theorem C3_contextual_score_witness :
    crDemo.retrieval_contexts.length = 3
    ∧ 0 < 3
    ∧ crDemo.get_irrelevancies crDemo.query crDemo.retrieval_contexts = .ok ["b"]
    ∧ (["b"] : List String).length = 1
    ∧ 1 ≤ 3
    ∧ crDemo.set_irrelevancies ["b"] = .ok ()
    ∧ crDemo.get_verdicts crDemo.query crDemo.retrieval_contexts = .ok ⟨[⟨"v1"⟩]⟩
    ∧ Event.callGetReason ["b"]
        (if 1 = 0 then 1 else max 0 (1 - (1 : ℚ) / (3 : ℚ)))
        ∈ (runProtocol (Metric.contextualRelevancy crDemo)).2 :=
  ⟨rfl, by decide, rfl, rfl, by decide, rfl, rfl,
   C3_contextual_score crDemo 3 1 ["b"] ⟨[⟨"v1"⟩]⟩ rfl (by decide) rfl rfl
     (by decide) rfl rfl⟩

/-- C4: for a successful `ContextualRelevancy` evaluation with three
contexts of which exactly one is flagged irrelevant, the report's
contextual-relevancy entry contains the rationale requested at, and
bundling, the computed score `max(0, 1 - 1/3)`. -/
theorem C4_contextual_entry (model : LMModel) (b : Bool) (mo : Option LMModel)
    (m : ContextualRelevancyM) (irrs : List String) (vs : VerdictsObj) (txt : String)
    (h3 : m.retrieval_contexts.length = 3)
    (hirr : m.get_irrelevancies m.query m.retrieval_contexts = .ok irrs)
    (h1 : irrs.length = 1)
    (hset : m.set_irrelevancies irrs = .ok ())
    (hvs : m.get_verdicts m.query m.retrieval_contexts = .ok vs)
    (htxt : m.get_reason_text irrs (max 0 (1 - (1 : ℚ) / 3)) = .ok txt) :
    lookupEntry (runAll model [⟨b, mo, Metric.contextualRelevancy m⟩]).1
        "contextual_relevancy"
      = some (Payload.contextualRelevancy (vs.verdicts.map Verdict.dict)
          ⟨txt, max 0 (1 - (1 : ℚ) / 3)⟩) := by
  have hscore : contextualScoreE irrs.length m.retrieval_contexts.length
      = .ok (max 0 (1 - (1 : ℚ) / 3)) := by
    rw [h1, h3]
    unfold contextualScoreE
    norm_num
  have hreason : m.get_reason irrs (max 0 (1 - (1 : ℚ) / 3))
      = .ok ⟨txt, max 0 (1 - (1 : ℚ) / 3)⟩ := by
    unfold ContextualRelevancyM.get_reason
    rw [htxt]
  have hrun : (runProtocol (Metric.contextualRelevancy m)).1
      = .ok (some ("contextual_relevancy",
          Payload.contextualRelevancy (vs.verdicts.map Verdict.dict)
            ⟨txt, max 0 (1 - (1 : ℚ) / 3)⟩)) := by
    simp only [runProtocol, runContextualRelevancy, hirr, hset, hvs, hscore, hreason]
  rw [lookup_runAll]
  simp [lastSuccess, lastUpd, successEntry, hrun]

/-- C4 witness: the demonstration strategy with three contexts and one
irrelevant item yields the entry with the score `max(0, 1 - 1/3)`. -/
theorem C4_contextual_entry_witness :
    crDemo.retrieval_contexts.length = 3
    ∧ crDemo.get_irrelevancies crDemo.query crDemo.retrieval_contexts = .ok ["b"]
    ∧ (["b"] : List String).length = 1
    ∧ crDemo.set_irrelevancies ["b"] = .ok ()
    ∧ crDemo.get_verdicts crDemo.query crDemo.retrieval_contexts = .ok ⟨[⟨"v1"⟩]⟩
    ∧ crDemo.get_reason_text ["b"] (max 0 (1 - (1 : ℚ) / 3))
        = .ok "one context was irrelevant"
    ∧ lookupEntry (runAll 0 [⟨false, none, Metric.contextualRelevancy crDemo⟩]).1
          "contextual_relevancy"
        = some (Payload.contextualRelevancy ["v1"]
            ⟨"one context was irrelevant", max 0 (1 - (1 : ℚ) / 3)⟩) :=
  ⟨rfl, rfl, rfl, rfl, rfl, rfl,
   C4_contextual_entry 0 false none crDemo ["b"] ⟨[⟨"v1"⟩]⟩
     "one context was irrelevant" rfl rfl rfl rfl rfl rfl⟩

/-- C5: for a `Faithfulness` strategy whose four stages all succeed, the
protocol invokes the stages in the fixed dependency order (claims, then
truths, then verdicts applied to the extracted claims, then the rationale
applied to the computed verdicts and truths), and the report's
faithfulness entry bundles all four stage outputs. -/
theorem C5_faithfulness_stages (model : LMModel) (b : Bool) (mo : Option LMModel)
    (fm : FaithfulnessM) (c : ClaimsObj) (t : TruthsObj) (vd : VerdictsObj) (r : ReasonObj)
    (hc : fm.evaluate_claims = .ok c)
    (ht : fm.evaluate_truths = .ok t)
    (hv : fm.evaluate_verdicts c.claims = .ok vd)
    (hr : fm.evaluate_reason vd t.truths = .ok r) :
    runProtocol (Metric.faithfulness fm)
      = (.ok (some ("faithfulness",
          Payload.faithfulness c.claims t.truths (vd.verdicts.map Verdict.dict) r.reason)),
         [Event.callEvaluateClaims, Event.callEvaluateTruths,
          Event.callEvaluateVerdicts c.claims, Event.callEvaluateReason vd t.truths])
    ∧ lookupEntry (runAll model [⟨b, mo, Metric.faithfulness fm⟩]).1 "faithfulness"
        = some (Payload.faithfulness c.claims t.truths
            (vd.verdicts.map Verdict.dict) r.reason) := by
  have hrun : runProtocol (Metric.faithfulness fm)
      = (.ok (some ("faithfulness",
          Payload.faithfulness c.claims t.truths (vd.verdicts.map Verdict.dict) r.reason)),
         [Event.callEvaluateClaims, Event.callEvaluateTruths,
          Event.callEvaluateVerdicts c.claims, Event.callEvaluateReason vd t.truths]) := by
    simp [runProtocol, runFaithfulness, hc, ht, hv, hr]
  refine ⟨hrun, ?_⟩
  rw [lookup_runAll]
  simp [lastSuccess, lastUpd, successEntry, hrun]

/-- C5 witness: the demonstration faithfulness strategy with all four
stages succeeding. -/
theorem C5_faithfulness_stages_witness :
    faithDemo.evaluate_claims = .ok ⟨["c1", "c2"]⟩
    ∧ faithDemo.evaluate_truths = .ok ⟨["t1"]⟩
    ∧ faithDemo.evaluate_verdicts ["c1", "c2"] = .ok ⟨[⟨"yes"⟩, ⟨"no"⟩]⟩
    ∧ faithDemo.evaluate_reason ⟨[⟨"yes"⟩, ⟨"no"⟩]⟩ ["t1"] = .ok ⟨"mostly supported"⟩
    ∧ (runProtocol (Metric.faithfulness faithDemo)
        = (.ok (some ("faithfulness",
            Payload.faithfulness ["c1", "c2"] ["t1"] ["yes", "no"] "mostly supported")),
           [Event.callEvaluateClaims, Event.callEvaluateTruths,
            Event.callEvaluateVerdicts ["c1", "c2"],
            Event.callEvaluateReason ⟨[⟨"yes"⟩, ⟨"no"⟩]⟩ ["t1"]])
       ∧ lookupEntry (runAll 0 [⟨false, none, Metric.faithfulness faithDemo⟩]).1
             "faithfulness"
           = some (Payload.faithfulness ["c1", "c2"] ["t1"] ["yes", "no"]
               "mostly supported")) :=
  ⟨rfl, rfl, rfl, rfl,
   C5_faithfulness_stages 0 false none faithDemo ⟨["c1", "c2"]⟩ ⟨["t1"]⟩
     ⟨[⟨"yes"⟩, ⟨"no"⟩]⟩ ⟨"mostly supported"⟩ rfl rfl rfl rfl⟩

/-- C10: when the configured list contains two strategies of the same
recognized kind and both succeed, each is still driven, in list order
(their blocks appear contiguously and in order in the trace), but the
report holds exactly one entry under that kind's key and its payload is
that of the last strategy of that kind that succeeded: the earlier
successful entry is overwritten. -/
theorem C10_last_success_wins (model : LMModel) (l1 l2 l3 : List Strategy)
    (s1 s2 : Strategy) (k : String) (p1 p2 : Payload)
    (h1 : successEntry s1 = some (k, p1))
    (h2 : successEntry s2 = some (k, p2))
    (h3 : lastSuccess l3 k = none) :
    lookupEntry (runAll model (l1 ++ s1 :: l2 ++ s2 :: l3)).1 k = some p2
    ∧ (entryKeys (runAll model (l1 ++ s1 :: l2 ++ s2 :: l3)).1).count k = 1
    ∧ (runAll model (l1 ++ s1 :: l2 ++ s2 :: l3)).2
        = (Evaluator.init model (l1 ++ s1 :: l2 ++ s2 :: l3)).2
          ++ l1.flatMap strategyBlock ++ strategyBlock s1 ++ l2.flatMap strategyBlock
          ++ strategyBlock s2 ++ l3.flatMap strategyBlock := by
  have hupd2 : ∀ o, lastUpd k o s2 = some p2 := by
    intro o
    unfold lastUpd
    rw [h2]
    simp
  have hlook : lookupEntry (runAll model (l1 ++ s1 :: l2 ++ s2 :: l3)).1 k = some p2 := by
    rw [lookup_runAll]
    unfold lastSuccess
    rw [List.foldl_append, List.foldl_cons, List.foldl_append, List.foldl_cons, hupd2,
      foldl_lastUpd_or, h3]
    rfl
  refine ⟨hlook, ?_, ?_⟩
  · exact List.count_eq_one_of_mem (nodup_entryKeys_runAll model _)
      (mem_keys_of_lookup _ k p2 hlook)
  · rw [runAll_trace]
    simp [List.flatMap_append, List.flatMap_cons, List.append_assoc]

/-- C10 witness: two BLEU strategies, scoring `1.0` and `0.0`; the report
holds one BLEU entry carrying the later score. -/
theorem C10_last_success_wins_witness :
    successEntry bleuOk = some ("BLEU", Payload.scoreOnly 1)
    ∧ successEntry bleuOk0 = some ("BLEU", Payload.scoreOnly 0)
    ∧ lastSuccess [] "BLEU" = none
    ∧ (lookupEntry (runAll 0 ([] ++ bleuOk :: [] ++ bleuOk0 :: [])).1 "BLEU"
         = some (Payload.scoreOnly 0)
       ∧ (entryKeys (runAll 0 ([] ++ bleuOk :: [] ++ bleuOk0 :: [])).1).count "BLEU" = 1
       ∧ (runAll 0 ([] ++ bleuOk :: [] ++ bleuOk0 :: [])).2
           = (Evaluator.init 0 ([] ++ bleuOk :: [] ++ bleuOk0 :: [])).2
             ++ ([] : List Strategy).flatMap strategyBlock ++ strategyBlock bleuOk
             ++ ([] : List Strategy).flatMap strategyBlock ++ strategyBlock bleuOk0
             ++ ([] : List Strategy).flatMap strategyBlock) :=
  ⟨rfl, rfl, rfl,
   C10_last_success_wins 0 [] [] [] bleuOk bleuOk0 "BLEU"
     (Payload.scoreOnly 1) (Payload.scoreOnly 0) rfl rfl rfl⟩

/-- C6: at construction the orchestrator invokes `set_model` with the
shared handle on exactly those configured strategies exposing it: the
stored strategy at each position is the configured one with its model
reference assigned when it has the capability and unchanged otherwise; a
`callSetModel` event for position `i` occurs in the construction trace
exactly when strategy `i` has the capability, at most once per position;
and all binding happens during construction, before any evaluation event
(the evaluation part of the run's trace contains no binding call). -/
theorem C6_model_binding (model : LMModel) (ms : List Strategy) :
    (∀ i, ((Evaluator.init model ms).1).metrics.get? i
        = (ms.get? i).map
            (fun s => if s.has_set_model then { s with model := some model } else s))
    ∧ (∀ i mo, Event.callSetModel i mo ∈ (Evaluator.init model ms).2 ↔
          mo = model ∧ (ms.get? i).map Strategy.has_set_model = some true)
    ∧ (∀ i mo, ((Evaluator.init model ms).2).count (Event.callSetModel i mo) ≤ 1)
    ∧ (runAll model ms).2 = (Evaluator.init model ms).2 ++ ms.flatMap strategyBlock
    ∧ (∀ i mo, Event.callSetModel i mo ∉ ms.flatMap strategyBlock) := by
  refine ⟨?_, ?_, ?_, runAll_trace model ms, fun i mo => flatMap_no_setModel ms i mo⟩
  · intro i
    rw [init_metrics, bindLoop_fst, List.get?_map]
  · intro i mo
    rw [init_trace]
    constructor
    · intro hmem
      rcases (by simpa using hmem :
          Event.callSetModel i mo ∈ (bindLoop model ms 0).2) with h1
      obtain ⟨hmo, _, hget⟩ := (bindLoop_mem_events model ms i mo 0).mp h1
      exact ⟨hmo, by simpa using hget⟩
    · rintro ⟨hmo, hget⟩
      have : Event.callSetModel i mo ∈ (bindLoop model ms 0).2 :=
        (bindLoop_mem_events model ms i mo 0).mpr ⟨hmo, Nat.zero_le i, by simpa using hget⟩
      simp [this]
  · intro i mo
    rw [init_trace]
    have h0 := bindLoop_count_le_one model ms i mo 0
    simpa [List.count_cons, List.count_append] using h0

/-- C6 witness: one capability-bearing strategy and one without; binding
hits exactly the first. -/
theorem C6_model_binding_witness :
    ((Evaluator.init 7 [capDemo, bleuOk]).1).metrics.get? 0
      = some { capDemo with model := some 7 }
    ∧ ((Evaluator.init 7 [capDemo, bleuOk]).1).metrics.get? 1 = some bleuOk
    ∧ Event.callSetModel 0 7 ∈ (Evaluator.init 7 [capDemo, bleuOk]).2
    ∧ Event.callSetModel 1 7 ∉ (Evaluator.init 7 [capDemo, bleuOk]).2
    ∧ ((Evaluator.init 7 [capDemo, bleuOk]).2).count (Event.callSetModel 0 7) ≤ 1 := by
  obtain ⟨h1, h2, h3, _, _⟩ := C6_model_binding 7 [capDemo, bleuOk]
  refine ⟨?_, ?_, ?_, ?_, h3 0 7⟩
  · rw [h1 0]
    rfl
  · rw [h1 1]
    rfl
  · exact (h2 0 7).mpr ⟨rfl, rfl⟩
  · intro hmem
    obtain ⟨_, hget⟩ := (h2 1 7).mp hmem
    simp [bleuOk] at hget
